import Mathlib

/-!
Verification of the sh4der-jockey render pipeline engine.

This development shallowly embeds the pure logic of the repository:
- src/util/mod.rs : interlace, the include preprocessor, draw helpers
- src/util/texture.rs : Texture::new and its framebuffer-completeness assertion
- src/jockey/mod.rs : update_pipeline, handle_events and the per-stage draw loop

OpenGL calls are modelled as a trace of commands; the values the driver would
return (uniform locations, generated handles, framebuffer status) are passed
in as an explicit environment. 32-bit float uniform payloads whose numeric
value the program never inspects (time, beat) are carried as opaque naturals.
-/

namespace Sh4der

/- ### src/util/mod.rs : interlace -/

/-- Embeds util::interlace: alternate heads while both slices are non-empty,
then append both remainders (one of which is empty). -/
def interlace {α : Type} : List α → List α → List α
  | fh :: ft, sh :: st => fh :: sh :: interlace ft st
  | first, second => first ++ second

/- ### src/util/mod.rs : preprocess (include expansion) -/

/-- Whitespace per the regex class backslash-s (ASCII relevant subset). -/
def isWs (c : Char) : Bool :=
  c = ' ' || c = '\t' || c = '\n' || c = '\r' || c = Char.ofNat 11 || c = Char.ofNat 12

/-- Match a literal character sequence at the head of the input, returning
the remainder on success. -/
def matchLit : List Char → List Char → Option (List Char)
  | [], cs => some cs
  | p :: ps, c :: cs => if c = p then matchLit ps cs else none
  | _ :: _, [] => none

/-- Index of the last closing bracket (greater-than or double quote) in a
line, implementing the greedy dot-star before the closing bracket class of
the include regex. -/
def lastCloseIdx (line : List Char) : Option Nat :=
  match line.reverse.findIdx? (fun c => c = '>' || c = '"') with
  | none => none
  | some j => some (line.length - 1 - j)

/-- Try to match the include regex
hash, ws*, (pragma ws*)?, include, ws+, open bracket, greedy dot-star, close
bracket -- at the head of the input. Returns the captured file name and the
input remainder after the match. The dot does not match a newline, and the
greedy capture extends to the last closing bracket on the line. If the
optional pragma group consumes input, the literal include must follow; the
pragma-less alternative cannot succeed on such input since the next
character is then the letter p. -/
def matchIncludeAt (cs : List Char) : Option (String × List Char) :=
  match cs with
  | '#' :: cs1 =>
    let cs2 := cs1.dropWhile isWs
    let cs3 := match matchLit ("pragma".toList) cs2 with
      | some rest => rest.dropWhile isWs
      | none => cs2
    match matchLit ("include".toList) cs3 with
    | none => none
    | some cs4 =>
      match cs4 with
      | [] => none
      | c :: _ =>
        if isWs c then
          let cs5 := cs4.dropWhile isWs
          match cs5 with
          | [] => none
          | b :: cs6 =>
            if b = '<' || b = '"' then
              let line := cs6.takeWhile (fun c2 => c2 ≠ '\n')
              match lastCloseIdx line with
              | none => none
              | some i => some (String.mk (line.take i), cs6.drop (i + 1))
            else none
        else none
  | _ => none

/-- Leftmost match of the include regex: returns the text before the match,
the captured file name, and the text after the match. -/
def findDirective : List Char → Option (List Char × String × List Char)
  | [] => none
  | c :: cs =>
    match matchIncludeAt (c :: cs) with
    | some (file, rest) => some ([], file, rest)
    | none =>
      match findDirective cs with
      | some (pre, f, r) => some (c :: pre, f, r)
      | none => none

/-- Association-list filesystem: file name to file contents. -/
def lookupFile (fs : List (String × String)) (name : String) : Option String :=
  (fs.find? (fun p => p.1 = name)).map (fun p => p.2)

/-- The cycle diagnostic produced by preprocess. -/
def cycleMsg (name : String) : String :=
  "Cycle detected! File " ++ name ++ " has been included further down the tree"

/-- Stand-in for the operating-system message of a failed read. -/
def ioErrMsg (name : String) : String :=
  "failed to read file " ++ name

/-- Number of filesystem entries whose name is not yet in the seen set;
decreases at every recursive call of the expander. -/
def seenMeasure (fs : List (String × String)) (seen : List String) : Nat :=
  (fs.filter (fun p => !seen.contains p.1)).length

/-- Embeds the recurse closure of util::preprocess. The seen set is carried
as a list; the insert of the Rust HashSet happens before both recursive
calls, so the expansion of the included file and of the remainder of the
current text both see the just-inserted name (the included file gets the
set by clone, the remainder inherits it). -/
def expand (fs : List (String × String)) (code : List Char) (seen : List String) :
    Except String (List Char) :=
  match findDirective code with
  | none => Except.ok code
  | some (pre, fileName, rest) =>
    if hseen : seen.contains fileName then
      Except.error (cycleMsg fileName)
    else
      match hlk : lookupFile fs fileName with
      | none => Except.error (ioErrMsg fileName)
      | some content =>
        match expand fs content.toList (fileName :: seen) with
        | Except.error e => Except.error e
        | Except.ok fileExp =>
          match expand fs rest (fileName :: seen) with
          | Except.error e => Except.error e
          | Except.ok post => Except.ok (pre ++ fileExp ++ post)
termination_by seenMeasure fs seen
decreasing_by
  all_goals
  · show seenMeasure fs (fileName :: seen) < seenMeasure fs seen
    unfold seenMeasure
    obtain ⟨entry, hmem, hname⟩ : ∃ e, e ∈ fs ∧ e.1 = fileName := by
      unfold lookupFile at hlk
      cases hfind : fs.find? (fun p => p.1 = fileName) with
      | none => rw [hfind] at hlk; simp at hlk
      | some e =>
        refine ⟨e, List.mem_of_find?_eq_some hfind, ?_⟩
        have := List.find?_some hfind
        simpa using this
    have hsub : (fs.filter (fun p => !(fileName :: seen).contains p.1)).Sublist
        (fs.filter (fun p => !seen.contains p.1)) := by
      apply List.monotone_filter_right
      intro a ha
      simp only [List.contains_cons, Bool.not_eq_true'] at ha ⊢
      simp only [Bool.or_eq_false_iff] at ha
      exact ha.2
    have hle := hsub.length_le
    rcases Nat.lt_or_ge (fs.filter (fun p => !(fileName :: seen).contains p.1)).length
        (fs.filter (fun p => !seen.contains p.1)).length with hlt | hge
    · exact hlt
    · exfalso
      have heq : (fs.filter (fun p => !(fileName :: seen).contains p.1)) =
          (fs.filter (fun p => !seen.contains p.1)) :=
        hsub.eq_of_length (Nat.le_antisymm hle hge)
      have hin : entry ∈ fs.filter (fun p => !seen.contains p.1) := by
        rw [List.mem_filter]
        refine ⟨hmem, ?_⟩
        simp only [Bool.not_eq_true']
        rw [hname]
        simpa using hseen
      rw [← heq, List.mem_filter] at hin
      have := hin.2
      rw [hname] at this
      simp at this

/-- Embeds util::preprocess: expand include directives starting from an
empty seen set. -/
def preprocess (fs : List (String × String)) (code : String) : Except String String :=
  match expand fs code.toList [] with
  | Except.error e => Except.error e
  | Except.ok cs => Except.ok (String.mk cs)

/-- How the two recursive results of the expander are combined with the text
before the directive: first error wins, otherwise concatenation. -/
def combineExpand (pre : List Char) :
    Except String (List Char) → Except String (List Char) → Except String (List Char)
  | Except.error e, _ => Except.error e
  | Except.ok _, Except.error e => Except.error e
  | Except.ok f, Except.ok p => Except.ok (pre ++ f ++ p)

/- ### OpenGL constants (numeric values of the gl crate enums used) -/

def GL_TEXTURE0 : Nat := 0x84C0
def GL_TEXTURE_2D : Nat := 0x0DE1
def GL_READ_ONLY : Nat := 0x88B8
def GL_WRITE_ONLY : Nat := 0x88B9
def GL_RGBA32F : Nat := 0x8814
def GL_SHADER_IMAGE_ACCESS_BARRIER_BIT : Nat := 0x20
def GL_FRAMEBUFFER : Nat := 0x8D40
def GL_ARRAY_BUFFER : Nat := 0x8892
def GL_TRIANGLES : Nat := 0x4
def GL_FLOAT : Nat := 0x1406
def GL_DEPTH_TEST : Nat := 0x0B71
def GL_LEQUAL : Nat := 0x0203
def GL_COLOR_BUFFER_BIT : Nat := 0x4000
def GL_DEPTH_BUFFER_BIT : Nat := 0x100
def GL_STATIC_DRAW : Nat := 0x88E4
def GL_FRAMEBUFFER_COMPLETE : Nat := 0x8CD5

/- ### OpenGL command trace

Each GL call the draw loop issues becomes one trace element. Locations are
GLint (may be -1 for an absent uniform). The f32 payloads of ClearColor,
ClearDepth and DepthRange are fixed literals in the source and are not
carried; the uniform float payloads time and beat are carried as opaque
naturals since the program never inspects them. -/

inductive GLCmd where
  | useProgram (prog : Nat)
  | uniform3f (loc : Int) (x y z : Nat)
  | uniform1f (loc : Int) (v : Nat)
  | uniform1fv (loc : Int) (count : Nat)
  | uniform1i (loc : Int) (v : Int)
  | activeTexture (unit : Nat)
  | bindTexture (target : Nat) (tex : Nat)
  | bindImageTexture (unit tex level : Nat) (layered : Bool) (layer access format : Nat)
  | dispatchCompute (x y z : Nat)
  | memoryBarrier (bits : Nat)
  | bindFramebuffer (target fb : Nat)
  | viewport (x y w h : Nat)
  | bindFragDataLocation (prog colorNumber : Nat) (name : String)
  | enableVertexAttribArray (loc : Int)
  | vertexAttribPointer (loc : Int) (size ty : Nat) (normalized : Bool) (stride : Nat)
  | clearColor
  | clearDepth
  | clear (bits : Nat)
  | enable (cap : Nat)
  | depthMask (flag : Bool)
  | depthFunc (func : Nat)
  | depthRange
  | bindVertexArray (vao : Nat)
  | bindBuffer (target buffer : Nat)
  | bufferData (target size : Nat)
  | drawArrays (mode first count : Nat)
  | generateMipmap (target : Nat)
deriving DecidableEq

/-- Embeds util::draw_fullscreen_rect as the trace it issues: the rect data
is 12 GLfloats (48 bytes) and yields 6 vertices. -/
def drawFullscreenRect (vao : Nat) : List GLCmd :=
  [GLCmd.bindVertexArray vao,
   GLCmd.bindBuffer GL_ARRAY_BUFFER vao,
   GLCmd.bufferData GL_ARRAY_BUFFER 48,
   GLCmd.drawArrays GL_TRIANGLES 0 6]

/-- Embeds util::draw_anything as the trace it issues. -/
def drawAnything (vao count mode : Nat) : List GLCmd :=
  [GLCmd.bindVertexArray vao,
   GLCmd.bindBuffer GL_ARRAY_BUFFER vao,
   GLCmd.bufferData GL_ARRAY_BUFFER 0,
   GLCmd.drawArrays mode 0 count]

/- ### src/util/texture.rs : Texture::new -/

/-- The Texture struct of src/util/texture.rs. -/
structure Texture where
  id : Nat
  fb : Nat
  slot : Nat
deriving DecidableEq

/-- Values the driver hands back during texture allocation: the names
GenTextures and GenFramebuffers produce and the status CheckFramebufferStatus
reports after attachment. -/
structure GlEnv where
  genTexture : Nat
  genFramebuffer : Nat
  framebufferStatus : Nat
deriving DecidableEq

/-- Result of an allocation that can only succeed or abort the process:
the Rust function returns Self and its sole failure mode is the
assert_eq on framebuffer completeness. -/
inductive TexResult where
  | ok (t : Texture)
  | panicked (msg : String)
deriving DecidableEq

/-- The message of the failed assert_eq in Texture::new. -/
def assertFbMsg : String :=
  "assertion failed: CheckFramebufferStatus(FRAMEBUFFER) == FRAMEBUFFER_COMPLETE"

/-- Embeds Texture::new: allocate texture + framebuffer, attach to color
attachment 0, then assert the framebuffer is complete; an incomplete
framebuffer aborts, everything else returns the handles. -/
def Texture.new (env : GlEnv) (width height : Int) (slot : Nat) : TexResult :=
  if env.framebufferStatus = GL_FRAMEBUFFER_COMPLETE then
    TexResult.ok { id := env.genTexture, fb := env.genFramebuffer, slot := slot }
  else
    TexResult.panicked assertFbMsg

/-- Result type of util::create_texture (same abort-only failure mode). -/
inductive CreateTexResult where
  | ok (tex fb index : Nat)
  | panicked (msg : String)
deriving DecidableEq

/-- Embeds util::create_texture of src/util/mod.rs: same assert on
framebuffer completeness, returns the (texture, framebuffer, index) triple. -/
def createTexture (env : GlEnv) (width height : Int) (index : Nat) : CreateTexResult :=
  if env.framebufferStatus = GL_FRAMEBUFFER_COMPLETE then
    CreateTexResult.ok env.genTexture env.genFramebuffer index
  else
    CreateTexResult.panicked assertFbMsg

/- ### src/jockey/mod.rs : pipeline data and the draw loop -/

namespace Jockey

/-- Modelled from the spec: the TextureKind variant used by Jockey::draw is
declared in a file not present here; per the spec a Texture carries a
framebufferId which is absent for textures that are not render targets. -/
inductive TextureKind where
  | frameBuffer (fb : Nat)
  | noFrameBuffer
deriving DecidableEq

/-- Modelled from the spec: the pipeline-owned Texture (id plus optional
attached framebuffer) as used by Jockey::draw; its declaration is in a file
not present here. -/
structure Texture where
  id : Nat
  kind : TextureKind
deriving DecidableEq

/-- Modelled from the spec: the closed stage-kind variant set (full-screen
fragment pass, explicit-geometry raster pass with vertex count and primitive
mode, compute dispatch with three dimensions); declared in a file not
present here but matched exhaustively by Jockey::draw. -/
inductive StageKind where
  | frag
  | vert (count : Nat) (mode : Nat)
  | comp (texDimX texDimY texDimZ : Nat)
deriving DecidableEq

/-- Modelled from the spec: one stage of the graph (program handle, kind,
ordered dependency names, optional target name, optional fixed resolution);
declared in a file not present here, fields as used by Jockey::draw. -/
structure Stage where
  prog_id : Nat
  kind : StageKind
  deps : List String
  target : Option String
  res : Option (Nat × Nat × Nat)
deriving DecidableEq

/-- Modelled from the spec: the resolution override accessor the draw loop
calls; returns the stage's optional fixed [w, h, d] resolution. -/
def Stage.resolution (s : Stage) : Option (Nat × Nat × Nat) := s.res

/-- Buffer registry lookup (the name-to-Texture mapping, as an association
list so that pipelines compare decidably). -/
def bufGet (buffers : List (String × Texture)) (name : String) : Option Texture :=
  (buffers.find? (fun p => p.1 = name)).map (fun p => p.2)

/-- Modelled from the spec: the Pipeline aggregate (ordered stages plus the
buffer registry); its declaration is in a file not present here. -/
structure Pipeline where
  stages : List Stage
  buffers : List (String × Texture)
deriving DecidableEq

/-- Embeds lines 271-275 of Jockey::draw: the effective render-target
resolution is the stage's override only when it matches Some([w, h, 0]);
any other shape (absent, or a nonzero depth component) falls through to the
window resolution. -/
def targetRes (stage : Stage) (width height : Nat) : Nat × Nat :=
  match stage.resolution with
  | some (w, h, 0) => (w, h)
  | _ => (width, height)

/-- Driver-supplied data the draw loop consumes: uniform and attribute
location queries, the window size, and the opaque time and beat values. -/
structure DrawEnv where
  getUniformLocation : Nat → String → Int
  getAttribLocation : Nat → String → Int
  width : Nat
  height : Nat
  time : Nat
  beat : Nat
  vao : Nat

/-- Embeds the dependency-binding loop of Jockey::draw (lines 312-321):
for the dependency at position k, activate texture unit TEXTURE0 + k, bind
the texture, additionally bind it to image unit 0 with access WRITE_ONLY
and format RGBA32F, and set the sampler uniform named after the buffer to
k. A missing buffer is the .unwrap() panic (None). -/
def depCmds (loc : Nat → String → Int) (buffers : List (String × Texture)) (prog : Nat) :
    Nat → List String → Option (List GLCmd)
  | _, [] => some []
  | k, name :: restNames =>
    match bufGet buffers name with
    | none => none
    | some tex =>
      match depCmds loc buffers prog (k + 1) restNames with
      | none => none
      | some cmds =>
        some (GLCmd.activeTexture (GL_TEXTURE0 + k) ::
              GLCmd.bindTexture GL_TEXTURE_2D tex.id ::
              GLCmd.bindImageTexture 0 tex.id 0 false 0 GL_WRITE_ONLY GL_RGBA32F ::
              GLCmd.uniform1i (loc prog name) (Int.ofNat k) :: cmds)

/-- The uniform-upload prelude every stage executes (lines 278-310):
program activation, the R/time/beat uniforms, the slider and button arrays
(both of fixed size 8), and for explicit-raster stages the vertex count. -/
def stageHeader (env : DrawEnv) (stage : Stage) : List GLCmd :=
  let prog := stage.prog_id
  let tr := targetRes stage env.width env.height
  [GLCmd.useProgram prog,
   GLCmd.uniform3f (env.getUniformLocation prog ("R")) tr.1 tr.2 env.time,
   GLCmd.uniform1f (env.getUniformLocation prog ("time")) env.time,
   GLCmd.uniform1f (env.getUniformLocation prog ("beat")) env.beat,
   GLCmd.uniform1fv (env.getUniformLocation prog ("sliders")) 8,
   GLCmd.uniform1fv (env.getUniformLocation prog ("buttons")) 8]
  ++ match stage.kind with
     | StageKind.vert count _ =>
       [GLCmd.uniform1f (env.getUniformLocation prog ("vertexCount")) count]
     | _ => []

/-- The depth-test and clear setup of the explicit-raster branch
(lines 364-371). -/
def vertClearCmds : List GLCmd :=
  [GLCmd.clearColor,
   GLCmd.clearDepth,
   GLCmd.clear (GL_COLOR_BUFFER_BIT ||| GL_DEPTH_BUFFER_BIT),
   GLCmd.enable GL_DEPTH_TEST,
   GLCmd.depthMask true,
   GLCmd.depthFunc GL_LEQUAL,
   GLCmd.depthRange]

/-- Resolves the render target of a raster stage (lines 331-340): a named
target must be in the registry (else the index panics) and must carry a
framebuffer (else the explicit panic); no target means the screen, id and
framebuffer both 0. -/
def resolveTarget (buffers : List (String × Texture)) (stage : Stage) :
    Option (Nat × Nat) :=
  match stage.target with
  | some name =>
    match bufGet buffers name with
    | none => none
    | some tex =>
      match tex.kind with
      | TextureKind.frameBuffer fb => some (tex.id, fb)
      | _ => none
  | none => some (0, 0)

/-- The raster branch of the kind dispatch (lines 329-382): bind the target
framebuffer, set the viewport to the effective resolution, set up the
fragment output and vertex layout, draw (with clears and depth testing for
the explicit kind, the shared quad otherwise), then bind the target texture
and regenerate its mip levels -- unconditionally, so a screen-target stage
runs GenerateMipmap with texture name 0 bound. -/
def rasterTail (env : DrawEnv) (buffers : List (String × Texture)) (stage : Stage) :
    Option (List GLCmd) :=
  let tr := targetRes stage env.width env.height
  let prog := stage.prog_id
  match resolveTarget buffers stage with
  | none => none
  | some (targetTex, targetFb) =>
    some ([GLCmd.bindFramebuffer GL_FRAMEBUFFER targetFb,
           GLCmd.viewport 0 0 tr.1 tr.2,
           GLCmd.bindFragDataLocation prog 0 ("out_color"),
           GLCmd.enableVertexAttribArray (env.getAttribLocation prog ("position")),
           GLCmd.vertexAttribPointer (env.getAttribLocation prog ("position")) 2 GL_FLOAT false 0]
      ++ (match stage.kind with
          | StageKind.vert count mode => vertClearCmds ++ drawAnything env.vao count mode
          | _ => drawFullscreenRect env.vao)
      ++ [GLCmd.bindTexture GL_TEXTURE_2D targetTex,
          GLCmd.generateMipmap GL_TEXTURE_2D])

/-- The GL trace of one stage of Jockey::draw: the uniform prelude, the
dependency bindings, then either the compute dispatch immediately followed
by the image-access memory barrier, or the raster branch. -/
def stageTrace (env : DrawEnv) (buffers : List (String × Texture)) (stage : Stage) :
    Option (List GLCmd) :=
  match depCmds env.getUniformLocation buffers stage.prog_id 0 stage.deps with
  | none => none
  | some deps =>
    match (match stage.kind with
           | StageKind.comp x y z =>
             some [GLCmd.dispatchCompute x (y.max 1) (z.max 1),
                   GLCmd.memoryBarrier GL_SHADER_IMAGE_ACCESS_BARRIER_BIT]
           | _ => rasterTail env buffers stage) with
    | none => none
    | some rest => some (stageHeader env stage ++ deps ++ rest)

/-- The GL trace of a whole frame: stages render front to back, so stage
traces concatenate in declaration order. -/
def drawTrace (env : DrawEnv) (buffers : List (String × Texture)) :
    List Stage → Option (List GLCmd)
  | [] => some []
  | s :: rest =>
    match stageTrace env buffers s, drawTrace env buffers rest with
    | some tr, some trs => some (tr ++ trs)
    | _, _ => none

/-- Semantics of GenerateMipmap over a trace: which texture names have their
mip levels regenerated, tracking the TEXTURE_2D binding left by BindTexture. -/
def mipmapTargets : Nat → List GLCmd → List Nat
  | _, [] => []
  | bound, GLCmd.bindTexture t id :: rest =>
    if t = GL_TEXTURE_2D then mipmapTargets id rest else mipmapTargets bound rest
  | bound, GLCmd.generateMipmap t :: rest =>
    (if t = GL_TEXTURE_2D then [bound] else []) ++ mipmapTargets bound rest
  | bound, _ :: rest => mipmapTargets bound rest

/- ### src/jockey/mod.rs : update_pipeline -/

/-- The per-run state update_pipeline touches. -/
structure JockeyState where
  pipeline : Pipeline
deriving DecidableEq

/-- Embeds Jockey::update_pipeline (lines 183-198), parameterized by the
outcome of Pipeline::load: on error, print the diagnostic and return with
the state untouched; on success, the new pipeline stomps the old one.
Returns the new state and the surfaced diagnostic, if any. -/
def updatePipeline (s : JockeyState) (loadResult : Except String Pipeline) :
    JockeyState × Option String :=
  match loadResult with
  | Except.error err => (s, some ("Failed to load pipeline:\n" ++ err))
  | Except.ok pl => ({ s with pipeline := pl }, none)

/- ### src/jockey/mod.rs : handle_events -/

/-- The SDL key codes handle_events inspects. -/
inductive Keycode where
  | escape
  | ret
  | otherKey
deriving DecidableEq

/-- The SDL events handle_events matches on. -/
inductive SdlEvent where
  | quit
  | keyDown (keycode : Option Keycode) (keymod : Nat)
  | windowResized (w : Int) (h : Int)
  | otherEvent
deriving DecidableEq

/-- One polled event together with whether imgui claims it
(imgui_sdl2.ignore_event). -/
structure EventRec where
  ignoredByImgui : Bool
  ev : SdlEvent
deriving DecidableEq

/-- The SDL2 left-control modifier bit (Mod::LCTRLMOD). -/
def kmodLCtrl : Nat := 0x40

/-- Whether an event is the manual reload chord: Return pressed with the
left-control modifier set (keymod AND LCTRLMOD != NOMOD, NOMOD being 0). -/
def isManualReload : SdlEvent → Bool
  | SdlEvent.keyDown (some Keycode.ret) km => (km &&& kmodLCtrl) != 0
  | _ => false

/-- Loop state of the event-poll loop of handle_events. -/
structure EventsAcc where
  doUpdate : Bool
  done : Bool
  resizes : List (Int × Int)
deriving DecidableEq

/-- One iteration of the poll loop (lines 206-236): imgui-claimed events are
skipped; Quit and Escape set done; Ctrl+Return forces the reload flag; a
resize is serviced only while the reload flag is not set. -/
def processEvent (acc : EventsAcc) (e : EventRec) : EventsAcc :=
  if e.ignoredByImgui then acc
  else
    match e.ev with
    | SdlEvent.quit => { acc with done := true }
    | SdlEvent.keyDown (some Keycode.escape) _ => { acc with done := true }
    | SdlEvent.keyDown (some Keycode.ret) km =>
      if (km &&& kmodLCtrl) != 0 then { acc with doUpdate := true } else acc
    | SdlEvent.windowResized w h =>
      if !acc.doUpdate then { acc with resizes := acc.resizes ++ [(w, h)] } else acc
    | _ => acc

/-- Outcome of one handle_events call: whether update_pipeline ran (and
last_build was reset), whether the quit flag was set, which resizes were
serviced, and the value of the shared FILE_CHANGE flag afterwards. -/
structure HEResult where
  reload : Bool
  done : Bool
  resizes : List (Int × Int)
  fileChangeAfter : Bool
deriving DecidableEq

/-- Embeds Jockey::handle_events (lines 200-243). fileChange is the value
of the FILE_CHANGE atomic at entry; the swap(false) reads and clears it
unconditionally before the debounce comparison is evaluated.
elapsedMillis is last_build.elapsed().as_millis(), the time since the
previous build completed (last_build is reset right after update_pipeline
returns). -/
def handleEvents (fileChange : Bool) (elapsedMillis : Nat) (events : List EventRec) :
    HEResult :=
  let start : EventsAcc :=
    { doUpdate := fileChange && decide (elapsedMillis > 100),
      done := false,
      resizes := [] }
  let acc := events.foldl processEvent start
  { reload := acc.doUpdate,
    done := acc.done,
    resizes := acc.resizes,
    fileChangeAfter := false }

/- ### trace predicates and helpers -/

/-- Whether a stage kind is the compute variant. -/
def StageKind.isComp : StageKind → Bool
  | StageKind.comp _ _ _ => true
  | _ => false

/-- Whether a trace contains a compute dispatch. -/
def hasDispatch (l : List GLCmd) : Bool :=
  l.any fun c =>
    match c with
    | GLCmd.dispatchCompute _ _ _ => true
    | _ => false

/-- Whether a trace contains a GenerateMipmap call. -/
def hasGenMipmap (l : List GLCmd) : Bool :=
  l.any fun c =>
    match c with
    | GLCmd.generateMipmap _ => true
    | _ => false

/-- The TEXTURE_2D binding after a trace has executed, starting from a given
binding. -/
def boundAfter : Nat → List GLCmd → Nat
  | b, [] => b
  | b, GLCmd.bindTexture t id :: rest =>
    if t = GL_TEXTURE_2D then boundAfter id rest else boundAfter b rest
  | b, _ :: rest => boundAfter b rest

/-- The (unit, texture, access) triples of every image bind in a trace. -/
def imageBinds (l : List GLCmd) : List (Nat × Nat × Nat) :=
  l.filterMap fun c =>
    match c with
    | GLCmd.bindImageTexture u t _ _ _ acc _ => some (u, t, acc)
    | _ => none

/- ### concrete fixtures for witnesses and counterexamples -/

/-- A location oracle that resolves every uniform and attribute to 0. -/
def locZero : Nat → String → Int := fun _ _ => 0

/-- A concrete draw environment: 1280x720 window. -/
def envC : DrawEnv :=
  { getUniformLocation := locZero, getAttribLocation := locZero,
    width := 1280, height := 720, time := 0, beat := 0, vao := 1 }

/-- A concrete buffer texture with id 7 and framebuffer 3. -/
def texSeven : Texture := { id := 7, kind := TextureKind.frameBuffer 3 }

/-- A registry holding the single buffer tex0. -/
def bufsC : List (String × Texture) := [("tex0", texSeven)]

/-- A fullscreen stage depending on tex0, rendering to the screen. -/
def stageC2 : Stage :=
  { prog_id := 1, kind := StageKind.frag, deps := ["tex0"], target := none, res := none }

/-- A stage with a fixed-resolution override whose depth component is 5. -/
def stageC4 : Stage :=
  { prog_id := 1, kind := StageKind.frag, deps := [], target := none,
    res := some (100, 200, 5) }

/-- A compute stage with declared dispatch dimensions [4, 0, 0]. -/
def stageC5 : Stage :=
  { prog_id := 2, kind := StageKind.comp 4 0 0, deps := [], target := none, res := none }

/-- A fullscreen stage rendering into the buffer tex0. -/
def stageC9t : Stage :=
  { prog_id := 3, kind := StageKind.frag, deps := [], target := some ("tex0"), res := none }

/-- A fullscreen stage rendering to the screen (no target). -/
def stageC9s : Stage :=
  { prog_id := 3, kind := StageKind.frag, deps := [], target := none, res := none }

/-- A GL environment whose framebuffer-status query reports 0 (incomplete). -/
def envBad : GlEnv := { genTexture := 1, genFramebuffer := 2, framebufferStatus := 0 }

/-- A GL environment whose framebuffer-status query reports complete. -/
def envGood : GlEnv :=
  { genTexture := 1, genFramebuffer := 2, framebufferStatus := GL_FRAMEBUFFER_COMPLETE }

/-- The Ctrl+Return key event (not claimed by imgui). -/
def evManual : EventRec :=
  { ignoredByImgui := false, ev := SdlEvent.keyDown (some Keycode.ret) kmodLCtrl }

end Jockey

/- ### concrete fixtures for the include preprocessor -/

/-- Filesystem with one file B whose content is plain text. -/
def fsB : List (String × String) := [("B", "x")]

/-- A text that includes B twice as siblings. -/
def codeTwice : String := "#include \"B\"\n#include \"B\""

/-- The remainder of codeTwice after its first directive. -/
def restTwice : List Char := ("\n#include \"B\"").toList

/-- Filesystem of the A-includes-B-includes-A cycle. -/
def fsAB : List (String × String) := [("A", "#include \"B\""), ("B", "#include \"A\"")]

/-- The content of file A in the cycle fixture. -/
def codeA : String := "#include \"B\""

/-- Filesystem where B and C both include D (a repeat across sibling
subtrees, not across directives of the same text). -/
def fsBCD : List (String × String) :=
  [("B", "#include \"D\""), ("C", "#include \"D\""), ("D", "d")]

/-- A text that includes B and then C. -/
def codeBC : String := "#include \"B\"\n#include \"C\""

/- ### helper lemmas: the expander -/

theorem expand_none {fs : List (String × String)} {code : List Char} {seen : List String}
    (h : findDirective code = none) : expand fs code seen = Except.ok code := by
  rw [expand.eq_1, h]

theorem expand_cycle {fs : List (String × String)} {code : List Char} {seen : List String}
    {pre : List Char} {name : String} {rest : List Char}
    (h : findDirective code = some (pre, name, rest))
    (h2 : seen.contains name = true) :
    expand fs code seen = Except.error (cycleMsg name) := by
  rw [expand.eq_1]
  simp only [h]
  exact dif_pos h2

theorem expand_missing {fs : List (String × String)} {code : List Char} {seen : List String}
    {pre : List Char} {name : String} {rest : List Char}
    (h : findDirective code = some (pre, name, rest))
    (h2 : seen.contains name = false)
    (h3 : lookupFile fs name = none) :
    expand fs code seen = Except.error (ioErrMsg name) := by
  rw [expand.eq_1]
  simp only [h]
  rw [dif_neg (by rw [h2]; exact Bool.false_ne_true)]
  split
  · rfl
  · simp_all

theorem expand_step {fs : List (String × String)} {code : List Char} {seen : List String}
    {pre : List Char} {name : String} {rest : List Char} {content : String}
    (h : findDirective code = some (pre, name, rest))
    (h2 : seen.contains name = false)
    (h3 : lookupFile fs name = some content) :
    expand fs code seen =
      combineExpand pre (expand fs content.toList (name :: seen))
        (expand fs rest (name :: seen)) := by
  rw [expand.eq_1]
  simp only [h]
  rw [dif_neg (by rw [h2]; exact Bool.false_ne_true)]
  split
  · simp_all
  · rename_i content2 hlk
    rw [h3] at hlk
    injection hlk with hh
    subst hh
    cases expand fs content.toList (name :: seen) <;>
      cases expand fs rest (name :: seen) <;> rfl

/- ### helper lemmas: handle_events -/

theorem processEvent_doUpdate (acc : Jockey.EventsAcc) (e : Jockey.EventRec) :
    (Jockey.processEvent acc e).doUpdate =
      (acc.doUpdate || (!e.ignoredByImgui && Jockey.isManualReload e.ev)) := by
  rcases e with ⟨ig, ev⟩
  cases ig
  · cases ev with
    | quit => simp [Jockey.processEvent, Jockey.isManualReload]
    | keyDown kc km =>
      cases kc with
      | none => simp [Jockey.processEvent, Jockey.isManualReload]
      | some k =>
        cases k <;> simp [Jockey.processEvent, Jockey.isManualReload] <;>
          split <;> simp_all
    | windowResized w h =>
      simp only [Jockey.processEvent, Jockey.isManualReload]
      split
      · simp_all
      · split <;> simp
    | otherEvent => simp [Jockey.processEvent, Jockey.isManualReload]
  · simp [Jockey.processEvent]

theorem foldl_doUpdate (evs : List Jockey.EventRec) (acc : Jockey.EventsAcc) :
    (evs.foldl Jockey.processEvent acc).doUpdate =
      (acc.doUpdate || evs.any (fun e => !e.ignoredByImgui && Jockey.isManualReload e.ev)) := by
  induction evs generalizing acc with
  | nil => simp
  | cons e rest ih =>
    simp [List.foldl_cons, ih, processEvent_doUpdate, Bool.or_assoc]

theorem handleEvents_reload (fc : Bool) (ms : Nat) (evs : List Jockey.EventRec) :
    (Jockey.handleEvents fc ms evs).reload =
      ((fc && decide (100 < ms)) ||
        evs.any (fun e => !e.ignoredByImgui && Jockey.isManualReload e.ev)) := by
  simp [Jockey.handleEvents, foldl_doUpdate]

/- ### helper lemmas: the dependency-binding loop -/

theorem depCmds_clean {loc : Nat → String → Int} {bufs : List (String × Jockey.Texture)}
    {prog : Nat} :
    ∀ (deps : List String) (k : Nat) (cmds : List GLCmd),
      Jockey.depCmds loc bufs prog k deps = some cmds →
      Jockey.hasDispatch cmds = false ∧ Jockey.hasGenMipmap cmds = false := by
  intro deps
  induction deps with
  | nil =>
    intro k cmds hd
    simp only [Jockey.depCmds] at hd
    cases hd
    simp [Jockey.hasDispatch, Jockey.hasGenMipmap]
  | cons n0 rest ih =>
    intro k cmds hd
    simp only [Jockey.depCmds] at hd
    cases hb : Jockey.bufGet bufs n0 with
    | none => rw [hb] at hd; simp at hd
    | some tex0 =>
      rw [hb] at hd
      cases hrest : Jockey.depCmds loc bufs prog (k + 1) rest with
      | none => rw [hrest] at hd; simp at hd
      | some cmds' =>
        rw [hrest] at hd
        simp only [Option.some.injEq] at hd
        subst hd
        have := ih (k + 1) cmds' hrest
        simp [Jockey.hasDispatch, Jockey.hasGenMipmap] at this ⊢
        exact this

theorem depCmds_infix {loc : Nat → String → Int} {bufs : List (String × Jockey.Texture)}
    {prog : Nat} :
    ∀ (deps : List String) (k j : Nat) (name : String) (cmds : List GLCmd),
      deps[j]? = some name →
      Jockey.depCmds loc bufs prog k deps = some cmds →
      ∃ tex, Jockey.bufGet bufs name = some tex ∧
        ([GLCmd.activeTexture (GL_TEXTURE0 + (k + j)),
          GLCmd.bindTexture GL_TEXTURE_2D tex.id,
          GLCmd.bindImageTexture 0 tex.id 0 false 0 GL_WRITE_ONLY GL_RGBA32F,
          GLCmd.uniform1i (loc prog name) (Int.ofNat (k + j))] : List GLCmd) <:+: cmds := by
  intro deps
  induction deps with
  | nil =>
    intro k j name cmds hj
    simp at hj
  | cons n0 rest ih =>
    intro k j name cmds hj hd
    simp only [Jockey.depCmds] at hd
    cases hb : Jockey.bufGet bufs n0 with
    | none => rw [hb] at hd; simp at hd
    | some tex0 =>
      rw [hb] at hd
      cases hrest : Jockey.depCmds loc bufs prog (k + 1) rest with
      | none => rw [hrest] at hd; simp at hd
      | some cmds' =>
        rw [hrest] at hd
        simp only [Option.some.injEq] at hd
        subst hd
        cases j with
        | zero =>
          simp only [List.getElem?_cons_zero, Option.some.injEq] at hj
          subst hj
          refine ⟨tex0, hb, [], cmds', by simp⟩
        | succ j' =>
          have hj' : rest[j']? = some name := by simpa using hj
          obtain ⟨tex, hbt, s, t, hst⟩ := ih (k + 1) j' name cmds' hj' hrest
          refine ⟨tex, hbt, ?_⟩
          have harith : k + 1 + j' = k + (j' + 1) := by omega
          rw [harith] at hst
          exact ⟨GLCmd.activeTexture (GL_TEXTURE0 + k) ::
                 GLCmd.bindTexture GL_TEXTURE_2D tex0.id ::
                 GLCmd.bindImageTexture 0 tex0.id 0 false 0 GL_WRITE_ONLY GL_RGBA32F ::
                 GLCmd.uniform1i (loc prog n0) (Int.ofNat k) :: s, t, by simpa using hst⟩

/- ### helper lemmas: mipmap semantics -/

theorem mipmapTargets_append (b : Nat) (l1 l2 : List GLCmd) :
    Jockey.mipmapTargets b (l1 ++ l2) =
      Jockey.mipmapTargets b l1 ++ Jockey.mipmapTargets (Jockey.boundAfter b l1) l2 := by
  induction l1 generalizing b with
  | nil => simp [Jockey.mipmapTargets, Jockey.boundAfter]
  | cons c rest ih =>
    cases c <;>
      simp only [List.cons_append, Jockey.mipmapTargets, Jockey.boundAfter] <;>
      first
        | (split <;> simp [ih])
        | simp [ih]

theorem hasGenMipmap_cons (c : GLCmd) (rest : List GLCmd) :
    Jockey.hasGenMipmap (c :: rest) =
      ((match c with | GLCmd.generateMipmap _ => true | _ => false) ||
        Jockey.hasGenMipmap rest) := rfl

theorem mipmapTargets_of_no_gen :
    ∀ (l : List GLCmd), Jockey.hasGenMipmap l = false → ∀ b, Jockey.mipmapTargets b l = [] := by
  intro l
  induction l with
  | nil => intro _ b; simp [Jockey.mipmapTargets]
  | cons c rest ih =>
    intro h b
    rw [hasGenMipmap_cons] at h
    obtain ⟨h1, h2⟩ := Bool.or_eq_false_iff.mp h
    cases c <;>
      first
        | (simp only [Jockey.mipmapTargets]
           split <;> exact ih h2 _)
        | (simp only [Jockey.mipmapTargets]
           exact ih h2 _)
        | (exact absurd h1 (by simp))

theorem stageHeader_clean (env : Jockey.DrawEnv) (stage : Jockey.Stage) :
    Jockey.hasGenMipmap (Jockey.stageHeader env stage) = false ∧
      Jockey.hasDispatch (Jockey.stageHeader env stage) = false := by
  cases hk : stage.kind <;>
    simp [Jockey.stageHeader, Jockey.hasGenMipmap, Jockey.hasDispatch, hk]

theorem drawFullscreenRect_clean (vao : Nat) :
    Jockey.hasGenMipmap (drawFullscreenRect vao) = false ∧
      Jockey.hasDispatch (drawFullscreenRect vao) = false := by
  simp [drawFullscreenRect, Jockey.hasGenMipmap, Jockey.hasDispatch]

theorem drawAnything_clean (vao count mode : Nat) :
    Jockey.hasGenMipmap (drawAnything vao count mode) = false ∧
      Jockey.hasDispatch (drawAnything vao count mode) = false := by
  simp [drawAnything, Jockey.hasGenMipmap, Jockey.hasDispatch]

theorem vertClearCmds_clean :
    Jockey.hasGenMipmap Jockey.vertClearCmds = false ∧ Jockey.hasDispatch Jockey.vertClearCmds = false := by
  simp [Jockey.vertClearCmds, Jockey.hasGenMipmap, Jockey.hasDispatch]

theorem hasGenMipmap_append (l1 l2 : List GLCmd) :
    Jockey.hasGenMipmap (l1 ++ l2) =
      (Jockey.hasGenMipmap l1 || Jockey.hasGenMipmap l2) := by
  simp [Jockey.hasGenMipmap, List.any_append]

theorem hasDispatch_append (l1 l2 : List GLCmd) :
    Jockey.hasDispatch (l1 ++ l2) =
      (Jockey.hasDispatch l1 || Jockey.hasDispatch l2) := by
  simp [Jockey.hasDispatch, List.any_append]

/-- Every successful raster-stage trace ends by binding the resolved target
texture and regenerating its mip levels, and that is the only mip
regeneration in the trace. -/
theorem stageTrace_raster_mipmap (env : Jockey.DrawEnv)
    (bufs : List (String × Jockey.Texture)) (stage : Jockey.Stage)
    (b0 : Nat) (tr : List GLCmd)
    (hk : Jockey.StageKind.isComp stage.kind = false)
    (htr : Jockey.stageTrace env bufs stage = some tr) :
    ∃ T F, Jockey.resolveTarget bufs stage = some (T, F) ∧
      Jockey.mipmapTargets b0 tr = [T] := by
  unfold Jockey.stageTrace at htr
  cases hd : Jockey.depCmds env.getUniformLocation bufs stage.prog_id 0 stage.deps with
  | none => rw [hd] at htr; simp at htr
  | some deps =>
    rw [hd] at htr
    have hdg := (depCmds_clean stage.deps 0 deps hd).2
    have hh := (stageHeader_clean env stage).1
    cases hkind : stage.kind with
    | comp a b c => rw [hkind] at hk; simp [Jockey.StageKind.isComp] at hk
    | frag =>
      rw [hkind] at htr
      cases hrt : Jockey.rasterTail env bufs stage with
      | none => rw [hrt] at htr; simp at htr
      | some rtail =>
        rw [hrt] at htr
        simp only [Option.some.injEq] at htr
        unfold Jockey.rasterTail at hrt
        cases hrv : Jockey.resolveTarget bufs stage with
        | none => rw [hrv] at hrt; simp at hrt
        | some TF =>
          obtain ⟨T, F⟩ := TF
          rw [hrv] at hrt
          rw [hkind] at hrt
          simp only [Option.some.injEq] at hrt
          refine ⟨T, F, rfl, ?_⟩
          subst htr
          rw [← hrt]
          have h12 : Jockey.hasGenMipmap (Jockey.stageHeader env stage ++ deps) = false := by
            rw [hasGenMipmap_append, hh, hdg]; rfl
          have h34 : Jockey.hasGenMipmap
              ([GLCmd.bindFramebuffer GL_FRAMEBUFFER F,
                GLCmd.viewport 0 0 (Jockey.targetRes stage env.width env.height).1
                  (Jockey.targetRes stage env.width env.height).2,
                GLCmd.bindFragDataLocation stage.prog_id 0 ("out_color"),
                GLCmd.enableVertexAttribArray (env.getAttribLocation stage.prog_id ("position")),
                GLCmd.vertexAttribPointer (env.getAttribLocation stage.prog_id ("position"))
                  2 GL_FLOAT false 0] ++ drawFullscreenRect env.vao) = false := by
            simp [Jockey.hasGenMipmap, List.any_append, drawFullscreenRect]
          rw [mipmapTargets_append, mipmapTargets_of_no_gen _ h12,
              mipmapTargets_append, mipmapTargets_of_no_gen _ h34]
          simp [Jockey.mipmapTargets]
    | vert count mode =>
      rw [hkind] at htr
      cases hrt : Jockey.rasterTail env bufs stage with
      | none => rw [hrt] at htr; simp at htr
      | some rtail =>
        rw [hrt] at htr
        simp only [Option.some.injEq] at htr
        unfold Jockey.rasterTail at hrt
        cases hrv : Jockey.resolveTarget bufs stage with
        | none => rw [hrv] at hrt; simp at hrt
        | some TF =>
          obtain ⟨T, F⟩ := TF
          rw [hrv] at hrt
          rw [hkind] at hrt
          simp only [Option.some.injEq] at hrt
          refine ⟨T, F, rfl, ?_⟩
          subst htr
          rw [← hrt]
          have h12 : Jockey.hasGenMipmap (Jockey.stageHeader env stage ++ deps) = false := by
            rw [hasGenMipmap_append, hh, hdg]; rfl
          have h34 : Jockey.hasGenMipmap
              ([GLCmd.bindFramebuffer GL_FRAMEBUFFER F,
                GLCmd.viewport 0 0 (Jockey.targetRes stage env.width env.height).1
                  (Jockey.targetRes stage env.width env.height).2,
                GLCmd.bindFragDataLocation stage.prog_id 0 ("out_color"),
                GLCmd.enableVertexAttribArray (env.getAttribLocation stage.prog_id ("position")),
                GLCmd.vertexAttribPointer (env.getAttribLocation stage.prog_id ("position"))
                  2 GL_FLOAT false 0] ++
                (Jockey.vertClearCmds ++ drawAnything env.vao count mode)) = false := by
            simp [Jockey.hasGenMipmap, List.any_append, drawAnything, Jockey.vertClearCmds]
          rw [mipmapTargets_append, mipmapTargets_of_no_gen _ h12,
              mipmapTargets_append, mipmapTargets_of_no_gen _ h34]
          simp [Jockey.mipmapTargets]

/- ### helper lemmas: interlace -/

theorem interlace_eq_zip {α : Type} (as bs : List α) :
    interlace as bs =
      (as.zip bs).flatMap (fun p => [p.1, p.2]) ++ as.drop bs.length ++ bs.drop as.length := by
  induction as generalizing bs with
  | nil => cases bs <;> simp [interlace]
  | cons fh ft ih =>
    cases bs with
    | nil => simp [interlace]
    | cons sh st => simp [interlace, ih ]

/- ### claim theorems -/

/-- C1: if Pipeline::load fails for any reason, update_pipeline leaves the
previously active Pipeline unchanged (same stage list, same buffer mapping)
and surfaces the load diagnostic; nothing from the failed load is installed. -/
theorem C1_update_pipeline_failure_keeps_old (s : Jockey.JockeyState) (err : String) :
    (Jockey.updatePipeline s (Except.error err)).1 = s ∧
    (Jockey.updatePipeline s (Except.error err)).1.pipeline.stages = s.pipeline.stages ∧
    (Jockey.updatePipeline s (Except.error err)).1.pipeline.buffers = s.pipeline.buffers ∧
    (Jockey.updatePipeline s (Except.error err)).2 =
      some ("Failed to load pipeline:\n" ++ err) :=
  ⟨rfl, rfl, rfl, rfl⟩

/-- C2 counterexample: at a concrete stage with one dependency, the single
image bind of the trace binds image unit 0 with access WRITE_ONLY, and no
command of the trace binds the texture as a READ_ONLY image, refuting the
claim that the dependency texture is bound as a read-only image. -/
theorem C2_counterexample_image_bind_is_write_only :
    Jockey.imageBinds ((Jockey.stageTrace Jockey.envC Jockey.bufsC Jockey.stageC2).getD []) =
      [(0, 7, GL_WRITE_ONLY)] ∧
    Jockey.stageTrace Jockey.envC Jockey.bufsC Jockey.stageC2 ≠ none ∧
    GL_WRITE_ONLY ≠ GL_READ_ONLY := by
  decide

/-- C2 (amended): for every dependency at position k of a stage's ordered
dependency list, the draw trace contains, contiguously: activation of
texture unit k, the bind of the dependency's texture, its bind as a
WRITE_ONLY (not read-only) image to image unit 0, and the sampler uniform
for that name set to k. -/
theorem C2_dependency_binding_amended
    (env : Jockey.DrawEnv) (bufs : List (String × Jockey.Texture)) (stage : Jockey.Stage)
    (k : Nat) (name : String) (tr : List GLCmd)
    (hdep : stage.deps[k]? = some name)
    (htr : Jockey.stageTrace env bufs stage = some tr) :
    ∃ tex, Jockey.bufGet bufs name = some tex ∧
      ([GLCmd.activeTexture (GL_TEXTURE0 + k),
        GLCmd.bindTexture GL_TEXTURE_2D tex.id,
        GLCmd.bindImageTexture 0 tex.id 0 false 0 GL_WRITE_ONLY GL_RGBA32F,
        GLCmd.uniform1i (env.getUniformLocation stage.prog_id name) (Int.ofNat k)]
        : List GLCmd) <:+: tr := by
  unfold Jockey.stageTrace at htr
  cases hd : Jockey.depCmds env.getUniformLocation bufs stage.prog_id 0 stage.deps with
  | none => rw [hd] at htr; simp at htr
  | some deps =>
    rw [hd] at htr
    obtain ⟨tex, hbt, hinf⟩ := depCmds_infix stage.deps 0 k name deps hdep hd
    rw [Nat.zero_add] at hinf
    refine ⟨tex, hbt, ?_⟩
    cases hm : (match stage.kind with
        | Jockey.StageKind.comp x y z =>
          some [GLCmd.dispatchCompute x (y.max 1) (z.max 1),
                GLCmd.memoryBarrier GL_SHADER_IMAGE_ACCESS_BARRIER_BIT]
        | _ => Jockey.rasterTail env bufs stage) with
    | none => rw [hm] at htr; simp at htr
    | some rest2 =>
      rw [hm] at htr
      simp only [Option.some.injEq] at htr
      subst htr
      obtain ⟨s, t, hst⟩ := hinf
      exact ⟨Jockey.stageHeader env stage ++ s, t ++ rest2, by
        rw [← hst]; simp⟩

/-- C2 witness: the amended binding property evaluated at the concrete
one-dependency stage. -/
theorem C2_dependency_binding_witness :
    ([GLCmd.activeTexture (GL_TEXTURE0 + 0),
      GLCmd.bindTexture GL_TEXTURE_2D 7,
      GLCmd.bindImageTexture 0 7 0 false 0 GL_WRITE_ONLY GL_RGBA32F,
      GLCmd.uniform1i 0 0] : List GLCmd) <:+:
      ((Jockey.stageTrace Jockey.envC Jockey.bufsC Jockey.stageC2).getD []) := by
  obtain ⟨tex, hbt, hinf⟩ :=
    C2_dependency_binding_amended Jockey.envC Jockey.bufsC Jockey.stageC2 0 ("tex0") _
      (by decide) rfl
  have htex : tex = Jockey.texSeven := by
    have h2 : Jockey.bufGet Jockey.bufsC ("tex0") = some Jockey.texSeven := by decide
    rw [h2] at hbt
    injection hbt with hh
    exact hh.symm
  subst htex
  exact hinf

/-- C3 counterexample: expanding the A-includes-B-includes-A cycle yields a
cycle error naming B, not A; and a file including B twice as siblings does
not succeed but also fails with the cycle error naming B. -/
theorem C3_counterexample_sibling_include_and_cycle_naming :
    preprocess fsAB codeA = Except.error (cycleMsg ("B")) ∧
    cycleMsg ("B") ≠ cycleMsg ("A") ∧
    preprocess fsB codeTwice = Except.error (cycleMsg ("B")) := by
  refine ⟨?_, by decide, ?_⟩
  · have c2 : expand fsAB (codeA.toList) ["A", "B"] = Except.error (cycleMsg ("B")) :=
      expand_cycle (by decide : findDirective (codeA.toList) = some ([], "B", []))
        (by decide : (["A", "B"] : List String).contains ("B") = true)
    have e2 : expand fsAB (("#include \"A\"").toList) ["B"] =
        Except.error (cycleMsg ("B")) := by
      rw [expand_step
          (by decide : findDirective (("#include \"A\"").toList) = some ([], "A", []))
          (by decide : (["B"] : List String).contains ("A") = false)
          (by decide : lookupFile fsAB "A" = some (codeA))]
      rw [c2, expand_none (by decide : findDirective ([] : List Char) = none)]
      rfl
    have etop : expand fsAB (codeA.toList) [] = Except.error (cycleMsg ("B")) := by
      rw [expand_step
          (by decide : findDirective (codeA.toList) = some ([], "B", []))
          (by decide : ([] : List String).contains ("B") = false)
          (by decide : lookupFile fsAB "B" = some ("#include \"A\""))]
      rw [e2, expand_none (by decide : findDirective ([] : List Char) = none)]
      rfl
    simp only [preprocess, etop]
  · have e1 : expand fsB (("x").toList) ["B"] = Except.ok (("x").toList) :=
      expand_none (by decide)
    have e2 : expand fsB restTwice ["B"] = Except.error (cycleMsg ("B")) :=
      expand_cycle (by decide : findDirective restTwice = some (['\n'], "B", []))
        (by decide : (["B"] : List String).contains ("B") = true)
    have etop : expand fsB (codeTwice.toList) [] = Except.error (cycleMsg ("B")) := by
      rw [expand_step
          (by decide : findDirective (codeTwice.toList) = some ([], "B", restTwice))
          (by decide : ([] : List String).contains ("B") = false)
          (by decide : lookupFile fsB "B" = some ("x"))]
      rw [e1, e2]
      rfl
    simp only [preprocess, etop]

/-- C3 (amended): the tracked set holds every name inserted along the
current expansion, including names of earlier sibling directives of the same
text (the set is cloned into each included file's expansion but inherited by
the remainder of the current text); a directive naming a file already in
that set fails with the cycle error naming the re-included file. Hence
A-includes-B-includes-A fails naming B (the first re-inserted name; the
top-level text itself is never in the set), A-includes-B-twice also fails
naming B, and a repeat across different sibling subtrees (B and C both
including D) succeeds. -/
theorem C3_cycle_detection_amended :
    (∀ (fs : List (String × String)) (code : List Char) (seen : List String)
       (pre : List Char) (name : String) (rest : List Char),
       findDirective code = some (pre, name, rest) → seen.contains name = true →
       expand fs code seen = Except.error (cycleMsg name)) ∧
    preprocess fsBCD codeBC = Except.ok ("d\nd") ∧
    preprocess fsAB codeA = Except.error (cycleMsg ("B")) ∧
    preprocess fsB codeTwice = Except.error (cycleMsg ("B")) := by
  refine ⟨?_, ?_, ?_, ?_⟩
  · intro fs code seen pre name rest h h2
    exact expand_cycle h h2
  · have eD1 : expand fsBCD (("d").toList) ["D", "B"] = Except.ok (("d").toList) :=
      expand_none (by decide)
    have eB : expand fsBCD (("#include \"D\"").toList) ["B"] =
        Except.ok (("d").toList) := by
      rw [expand_step
          (by decide : findDirective (("#include \"D\"").toList) = some ([], "D", []))
          (by decide : (["B"] : List String).contains ("D") = false)
          (by decide : lookupFile fsBCD "D" = some ("d"))]
      rw [eD1, expand_none (by decide : findDirective ([] : List Char) = none)]
      rfl
    have eD2 : expand fsBCD (("d").toList) ["D", "C", "B"] = Except.ok (("d").toList) :=
      expand_none (by decide)
    have eC : expand fsBCD (("#include \"D\"").toList) ["C", "B"] =
        Except.ok (("d").toList) := by
      rw [expand_step
          (by decide : findDirective (("#include \"D\"").toList) = some ([], "D", []))
          (by decide : (["C", "B"] : List String).contains ("D") = false)
          (by decide : lookupFile fsBCD "D" = some ("d"))]
      rw [eD2, expand_none (by decide : findDirective ([] : List Char) = none)]
      rfl
    have eRest : expand fsBCD (("\n#include \"C\"").toList) ["B"] =
        Except.ok ('\n' :: ("d").toList) := by
      rw [expand_step
          (by decide :
            findDirective (("\n#include \"C\"").toList) = some (['\n'], "C", []))
          (by decide : (["B"] : List String).contains ("C") = false)
          (by decide : lookupFile fsBCD "C" = some ("#include \"D\""))]
      rw [eC, expand_none (by decide : findDirective ([] : List Char) = none)]
      rfl
    have etop : expand fsBCD (codeBC.toList) [] =
        Except.ok (("d").toList ++ '\n' :: ("d").toList) := by
      rw [expand_step
          (by decide : findDirective (codeBC.toList) =
            some ([], "B", ("\n#include \"C\"").toList))
          (by decide : ([] : List String).contains ("B") = false)
          (by decide : lookupFile fsBCD "B" = some ("#include \"D\""))]
      rw [eB, eRest]
      rfl
    simp only [preprocess, etop]
    rfl
  · have c2 : expand fsAB (codeA.toList) ["A", "B"] = Except.error (cycleMsg ("B")) :=
      expand_cycle (by decide : findDirective (codeA.toList) = some ([], "B", []))
        (by decide : (["A", "B"] : List String).contains ("B") = true)
    have e2 : expand fsAB (("#include \"A\"").toList) ["B"] =
        Except.error (cycleMsg ("B")) := by
      rw [expand_step
          (by decide : findDirective (("#include \"A\"").toList) = some ([], "A", []))
          (by decide : (["B"] : List String).contains ("A") = false)
          (by decide : lookupFile fsAB "A" = some (codeA))]
      rw [c2, expand_none (by decide : findDirective ([] : List Char) = none)]
      rfl
    have etop : expand fsAB (codeA.toList) [] = Except.error (cycleMsg ("B")) := by
      rw [expand_step
          (by decide : findDirective (codeA.toList) = some ([], "B", []))
          (by decide : ([] : List String).contains ("B") = false)
          (by decide : lookupFile fsAB "B" = some ("#include \"A\""))]
      rw [e2, expand_none (by decide : findDirective ([] : List Char) = none)]
      rfl
    simp only [preprocess, etop]
  · have e1 : expand fsB (("x").toList) ["B"] = Except.ok (("x").toList) :=
      expand_none (by decide)
    have e2 : expand fsB restTwice ["B"] = Except.error (cycleMsg ("B")) :=
      expand_cycle (by decide : findDirective restTwice = some (['\n'], "B", []))
        (by decide : (["B"] : List String).contains ("B") = true)
    have etop : expand fsB (codeTwice.toList) [] = Except.error (cycleMsg ("B")) := by
      rw [expand_step
          (by decide : findDirective (codeTwice.toList) = some ([], "B", restTwice))
          (by decide : ([] : List String).contains ("B") = false)
          (by decide : lookupFile fsB "B" = some ("x"))]
      rw [e1, e2]
      rfl
    simp only [preprocess, etop]

/-- C3 witness: the general cycle clause of the amended claim applied at the
concrete remainder of the sibling-include text. -/
theorem C3_cycle_detection_witness :
    expand fsB restTwice ["B"] = Except.error (cycleMsg ("B")) :=
  C3_cycle_detection_amended.1 fsB restTwice ["B"] ['\n'] ("B") []
    (by decide) (by decide)

/-- C4 counterexample: a stage whose resolution override is present but has
the nonzero depth component 5 renders at the window resolution, refuting the
claim that the override is used whenever one is present. -/
theorem C4_counterexample_nonzero_depth_override_ignored :
    Jockey.stageC4.resolution = some (100, 200, 5) ∧
    Jockey.targetRes Jockey.stageC4 1280 720 = (1280, 720) ∧
    ((1280, 720) : Nat × Nat) ≠ (100, 200) := by
  decide

/-- C4 (amended): the effective render-target resolution is the stage's
override exactly when the override is present with a zero depth component;
an absent override, or one with a nonzero depth component, falls through to
the window resolution. The effective resolution is what the R uniform and
(for raster stages) the viewport receive. -/
theorem C4_target_resolution_amended (s : Jockey.Stage) (W H : Nat) :
    (∀ w h, s.resolution = some (w, h, 0) → Jockey.targetRes s W H = (w, h)) ∧
    (s.resolution = none → Jockey.targetRes s W H = (W, H)) ∧
    (∀ w h d, s.resolution = some (w, h, d) → d ≠ 0 → Jockey.targetRes s W H = (W, H)) ∧
    (∀ (env : Jockey.DrawEnv) bufs tr, env.width = W → env.height = H →
       Jockey.stageTrace env bufs s = some tr →
       GLCmd.uniform3f (env.getUniformLocation s.prog_id ("R"))
           (Jockey.targetRes s W H).1 (Jockey.targetRes s W H).2 env.time ∈ tr ∧
       (Jockey.StageKind.isComp s.kind = false →
         GLCmd.viewport 0 0 (Jockey.targetRes s W H).1 (Jockey.targetRes s W H).2 ∈ tr)) := by
  refine ⟨?_, ?_, ?_, ?_⟩
  · intro w h hr
    unfold Jockey.targetRes
    rw [hr]
  · intro hr
    unfold Jockey.targetRes
    rw [hr]
  · intro w h d hr hd
    unfold Jockey.targetRes
    rw [hr]
    cases d with
    | zero => exact absurd rfl hd
    | succ d2 => rfl
  · intro env bufs tr hW hH htr
    subst hW
    subst hH
    unfold Jockey.stageTrace at htr
    cases hd : Jockey.depCmds env.getUniformLocation bufs s.prog_id 0 s.deps with
    | none => rw [hd] at htr; simp at htr
    | some deps =>
      rw [hd] at htr
      cases hm : (match s.kind with
          | Jockey.StageKind.comp x y z =>
            some [GLCmd.dispatchCompute x (y.max 1) (z.max 1),
                  GLCmd.memoryBarrier GL_SHADER_IMAGE_ACCESS_BARRIER_BIT]
          | _ => Jockey.rasterTail env bufs s) with
      | none => rw [hm] at htr; simp at htr
      | some rest2 =>
        rw [hm] at htr
        simp only [Option.some.injEq] at htr
        subst htr
        constructor
        · simp [Jockey.stageHeader]
        · intro hcomp
          cases hkind : s.kind with
          | comp a b c =>
            rw [hkind] at hcomp
            simp [Jockey.StageKind.isComp] at hcomp
          | frag =>
            rw [hkind] at hm
            unfold Jockey.rasterTail at hm
            cases hrv : Jockey.resolveTarget bufs s with
            | none => rw [hrv] at hm; simp at hm
            | some TF =>
              rw [hrv] at hm
              simp only [Option.some.injEq] at hm
              rw [← hm]
              simp
          | vert count mode =>
            rw [hkind] at hm
            unfold Jockey.rasterTail at hm
            cases hrv : Jockey.resolveTarget bufs s with
            | none => rw [hrv] at hm; simp at hm
            | some TF =>
              rw [hrv] at hm
              simp only [Option.some.injEq] at hm
              rw [← hm]
              simp

/-- C4 witness: the amended resolution rule evaluated at the concrete stage
with override [100, 200, 5] in a 1280x720 window, including the R uniform
carrying the effective (window, not override) resolution. -/
theorem C4_target_resolution_witness :
    Jockey.targetRes Jockey.stageC4 1280 720 = (1280, 720) ∧
    GLCmd.uniform3f 0 1280 720 0 ∈
      ((Jockey.stageTrace Jockey.envC Jockey.bufsC Jockey.stageC4).getD []) := by
  constructor
  · exact (C4_target_resolution_amended Jockey.stageC4 1280 720).2.2.1 100 200 5 rfl
      (by decide)
  · exact ((C4_target_resolution_amended Jockey.stageC4 1280 720).2.2.2
      Jockey.envC Jockey.bufsC _ rfl rfl rfl).1

/-- C5: a compute stage's trace ends with exactly one compute dispatch,
whose x dimension is the declared x and whose y and z dimensions are the
declared values floored at 1, immediately followed by the
shader-image-access memory barrier; and the frame trace of stage :: rest is
the stage's trace followed by the later stages' traces, so the barrier
precedes every later stage. -/
theorem C5_compute_dispatch_barrier
    (env : Jockey.DrawEnv) (bufs : List (String × Jockey.Texture)) (stage : Jockey.Stage)
    (x y z : Nat) (tr : List GLCmd)
    (hk : stage.kind = Jockey.StageKind.comp x y z)
    (htr : Jockey.stageTrace env bufs stage = some tr) :
    (∃ pre, tr = pre ++ [GLCmd.dispatchCompute x (y.max 1) (z.max 1),
         GLCmd.memoryBarrier GL_SHADER_IMAGE_ACCESS_BARRIER_BIT] ∧
       Jockey.hasDispatch pre = false) ∧
    (∀ rest trs, Jockey.drawTrace env bufs rest = some trs →
       Jockey.drawTrace env bufs (stage :: rest) = some (tr ++ trs)) := by
  constructor
  · unfold Jockey.stageTrace at htr
    cases hd : Jockey.depCmds env.getUniformLocation bufs stage.prog_id 0 stage.deps with
    | none => rw [hd] at htr; simp at htr
    | some deps =>
      rw [hd, hk] at htr
      simp only [Option.some.injEq] at htr
      subst htr
      refine ⟨Jockey.stageHeader env stage ++ deps, by simp, ?_⟩
      rw [hasDispatch_append, (stageHeader_clean env stage).2,
          (depCmds_clean stage.deps 0 deps hd).1]
      rfl
  · intro rest trs htrs
    simp only [Jockey.drawTrace]
    rw [htr, htrs]

/-- C5 witness: the frame trace of the single concrete compute stage is its
stage trace. -/
theorem C5_compute_dispatch_barrier_witness :
    Jockey.drawTrace Jockey.envC Jockey.bufsC [Jockey.stageC5] =
      some (((Jockey.stageTrace Jockey.envC Jockey.bufsC Jockey.stageC5).getD []) ++ []) :=
  (C5_compute_dispatch_barrier Jockey.envC Jockey.bufsC Jockey.stageC5 4 0 0 _
    rfl rfl).2 [] [] rfl

/-- C6: during handle_events, the reload runs exactly when the file-change
flag was set and more than 100 milliseconds have elapsed since the previous
build completed, or a non-imgui-claimed Ctrl+Return event was polled; in
particular a manual trigger forces the reload regardless of the debounce,
and without one a file-change signal within the 100 ms window does not
reload. -/
theorem C6_debounce_and_manual_reload (fc : Bool) (ms : Nat)
    (evs : List Jockey.EventRec) :
    (Jockey.handleEvents fc ms evs).reload =
      ((fc && decide (100 < ms)) ||
        evs.any (fun e => !e.ignoredByImgui && Jockey.isManualReload e.ev)) ∧
    (evs.any (fun e => !e.ignoredByImgui && Jockey.isManualReload e.ev) = true →
      (Jockey.handleEvents fc ms evs).reload = true) ∧
    (evs.any (fun e => !e.ignoredByImgui && Jockey.isManualReload e.ev) = false →
      ms ≤ 100 →
      (Jockey.handleEvents fc ms evs).reload = false) := by
  refine ⟨handleEvents_reload fc ms evs, ?_, ?_⟩
  · intro h
    rw [handleEvents_reload, h]
    simp
  · intro h hle
    rw [handleEvents_reload, h]
    have hnl : ¬ (100 < ms) := by omega
    simp [hnl]

/-- C6 witness: a Ctrl+Return event reloads even at zero elapsed time with
the file-change flag clear. -/
theorem C6_debounce_and_manual_reload_witness :
    (Jockey.handleEvents false 0 [Jockey.evManual]).reload = true :=
  (C6_debounce_and_manual_reload false 0 [Jockey.evManual]).2.1 (by decide)

/-- C7: Texture::new (and util::create_texture) panics with the assertion
message exactly when the driver reports the framebuffer incomplete after
attachment, and otherwise returns the allocated handles; the result type has
no recoverable-error channel, so an incomplete framebuffer is never
surfaced as a load error. -/
theorem C7_texture_new_asserts_complete (env : GlEnv) (w h : Int) (slot : Nat) :
    (Texture.new env w h slot = TexResult.panicked assertFbMsg ↔
      env.framebufferStatus ≠ GL_FRAMEBUFFER_COMPLETE) ∧
    (env.framebufferStatus = GL_FRAMEBUFFER_COMPLETE →
      Texture.new env w h slot =
        TexResult.ok { id := env.genTexture, fb := env.genFramebuffer, slot := slot }) ∧
    (createTexture env w h slot = CreateTexResult.panicked assertFbMsg ↔
      env.framebufferStatus ≠ GL_FRAMEBUFFER_COMPLETE) := by
  by_cases hc : env.framebufferStatus = GL_FRAMEBUFFER_COMPLETE <;>
    simp [Texture.new, createTexture, hc]

/-- C7 witness: an incomplete-status environment aborts, a complete-status
environment returns the handles. -/
theorem C7_texture_new_witness :
    Texture.new Jockey.envBad 1 1 0 = TexResult.panicked assertFbMsg ∧
    Texture.new Jockey.envGood 1 1 0 = TexResult.ok { id := 1, fb := 2, slot := 0 } := by
  constructor
  · exact (C7_texture_new_asserts_complete Jockey.envBad 1 1 0).1.mpr (by decide)
  · exact (C7_texture_new_asserts_complete Jockey.envGood 1 1 0).2.1 (by decide)

/-- C8: interlace on the two spec examples, and in general: alternate
elements of the two slices while both are non-empty (the zipped part), then
append the remaining tail of the longer slice in its original order. -/
theorem C8_interlace_spec :
    interlace [1, 2, 3, 4] [5, 6, 7, 8] = [1, 5, 2, 6, 3, 7, 4, 8] ∧
    interlace [1, 2, 3] [4, 5, 6, 7, 8] = [1, 4, 2, 5, 3, 6, 7, 8] ∧
    ∀ (α : Type) (as bs : List α),
      interlace as bs =
        (as.zip bs).flatMap (fun p => [p.1, p.2]) ++
          as.drop bs.length ++ bs.drop as.length := by
  refine ⟨by decide, by decide, ?_⟩
  intro α as bs
  exact interlace_eq_zip as bs

/-- C9: after the draw of a raster stage with a target buffer, exactly that
buffer's texture has its mip levels regenerated; for a raster stage with no
target, the unconditional GenerateMipmap call applies to texture name 0, so
no pipeline buffer texture (all of which have nonzero names) has its mip
levels regenerated by that stage. -/
theorem C9_mipmap_regeneration (env : Jockey.DrawEnv)
    (bufs : List (String × Jockey.Texture)) (stage : Jockey.Stage)
    (b0 : Nat) (tr : List GLCmd)
    (htr : Jockey.stageTrace env bufs stage = some tr)
    (hk : Jockey.StageKind.isComp stage.kind = false) :
    (∀ tname ttex, stage.target = some tname → Jockey.bufGet bufs tname = some ttex →
      Jockey.mipmapTargets b0 tr = [ttex.id]) ∧
    (stage.target = none →
      Jockey.mipmapTargets b0 tr = [0] ∧
      ∀ nm t, Jockey.bufGet bufs nm = some t → t.id ≠ 0 →
        t.id ∉ Jockey.mipmapTargets b0 tr) := by
  obtain ⟨T, F, hrt, hmip⟩ := stageTrace_raster_mipmap env bufs stage b0 tr hk htr
  constructor
  · intro tname ttex htn hbt
    unfold Jockey.resolveTarget at hrt
    simp only [htn, hbt] at hrt
    cases hkt : ttex.kind with
    | noFrameBuffer =>
      simp only [hkt] at hrt
      simp at hrt
    | frameBuffer fb =>
      simp only [hkt, Option.some.injEq, Prod.mk.injEq] at hrt
      rw [hmip, hrt.1]
  · intro htn
    unfold Jockey.resolveTarget at hrt
    simp only [htn, Option.some.injEq, Prod.mk.injEq] at hrt
    constructor
    · rw [hmip, ← hrt.1]
    · intro nm t hbt hnz
      rw [hmip, ← hrt.1]
      simp [hnz]

/-- C9 witness: the targeted concrete stage regenerates exactly buffer
texture 7; the screen-target concrete stage regenerates only texture name 0. -/
theorem C9_mipmap_regeneration_witness :
    Jockey.mipmapTargets 0 ((Jockey.stageTrace Jockey.envC Jockey.bufsC Jockey.stageC9t).getD [])
      = [7] ∧
    Jockey.mipmapTargets 0 ((Jockey.stageTrace Jockey.envC Jockey.bufsC Jockey.stageC9s).getD [])
      = [0] := by
  constructor
  · exact (C9_mipmap_regeneration Jockey.envC Jockey.bufsC Jockey.stageC9t 0 _
      rfl rfl).1 ("tex0") Jockey.texSeven rfl rfl
  · exact ((C9_mipmap_regeneration Jockey.envC Jockey.bufsC Jockey.stageC9s 0 _
      rfl rfl).2 rfl).1

/-- C10: handle_events clears the shared file-change flag unconditionally on
every call; a change signal arriving when at most 100 milliseconds have
elapsed (and no manual trigger is polled) does not reload, and since the
flag is now clear, no later call reloads either unless a new change signal
or manual trigger arrives. -/
theorem C10_file_change_flag_cleared (fc : Bool) (ms : Nat)
    (evs : List Jockey.EventRec) :
    (Jockey.handleEvents fc ms evs).fileChangeAfter = false ∧
    (evs.any (fun e => !e.ignoredByImgui && Jockey.isManualReload e.ev) = false →
      ms ≤ 100 → (Jockey.handleEvents true ms evs).reload = false) ∧
    (∀ ms2 evs2,
      evs2.any (fun e => !e.ignoredByImgui && Jockey.isManualReload e.ev) = false →
      (Jockey.handleEvents false ms2 evs2).reload = false) := by
  refine ⟨rfl, ?_, ?_⟩
  · intro h hle
    rw [handleEvents_reload, h]
    have hnl : ¬ (100 < ms) := by omega
    simp [hnl]
  · intro ms2 evs2 h
    rw [handleEvents_reload, h]
    simp

/-- C10 witness: a suppressed signal is discarded (flag cleared, no reload)
and a later call without a new signal does not reload. -/
theorem C10_file_change_flag_cleared_witness :
    (Jockey.handleEvents true 50 []).fileChangeAfter = false ∧
    (Jockey.handleEvents true 50 []).reload = false ∧
    (Jockey.handleEvents false 500 []).reload = false :=
  ⟨(C10_file_change_flag_cleared true 50 []).1,
   (C10_file_change_flag_cleared true 50 []).2.1 rfl (by decide),
   (C10_file_change_flag_cleared true 50 []).2.2 500 [] rfl⟩

end Sh4der
